import Mathlib

/-!
# Error normaliser of `website/app.js`

A shallow embedding of the two custom middlewares of `website/app.js` (the
not-found fallback, lines 201-218, and the error formatter, lines 223-278)
together with the order in which `app.use` registers the pipeline stages
(lines 87-223).

JavaScript values are modelled as finite trees: `undefined`, `null`, booleans,
numbers (a rational, which covers every finite double, or `NaN`, or one of
the two infinities), strings, and objects with an ordered list of own data
properties, each with its enumerable and writable flags, a flag telling
whether the object is extensible, and a flag telling whether it is an `Error`
instance (so that it inherits `Error.prototype`). Functions, symbols, arrays,
big integers, accessors and cyclic object graphs are outside the model.

The middlewares call into the framework (`res.status`, `res.json`, `res.end`,
`console.error`, `next`). The calls a middleware makes are recorded as a
trace, in program order; a call that raises ends the body of the middleware,
and the trace then ends with the raised value.

The framework hands a pending error to an error handler only when the error
is truthy (`dispatch` below), so the values that reach the error formatter
are the truthy ones; the statements about "every error" carry that
hypothesis.
-/

namespace App

/-! ## JavaScript values -/

mutual
/-- JavaScript values. -/
inductive JSVal where
  | undefined
  | null
  | bool (b : Bool)
  | num (n : ℚ)
  | nan
  | inf (negative : Bool)
  | str (s : String)
  | obj (isError : Bool) (extensible : Bool) (props : JSProps)
  deriving DecidableEq
/-- Own data properties of an object, in insertion order (keys that look like
array indices, which JavaScript lists first, are not treated apart). -/
inductive JSProps where
  | nil
  | cons (key : String) (value : JSVal) (enumerable : Bool) (writable : Bool) (rest : JSProps)
  deriving DecidableEq
end

/-- Own property lookup. -/
def JSProps.lookup : JSProps → String → Option JSVal
  | .nil, _ => none
  | .cons k v _ _ rest, key => if k = key then some v else rest.lookup key

/-- Own property write in sloppy mode: an existing writable property gets the
new value and keeps its place and its flags; a write to a property that is
not writable is dropped; a new property is appended, enumerable and writable,
when the object is extensible, and the write is dropped when it is not (a
frozen, sealed or non-extensible object). -/
def JSProps.assign (extensible : Bool) : JSProps → String → JSVal → JSProps
  | .nil, key, v => if extensible then .cons key v true true .nil else .nil
  | .cons k w e wr rest, key, v =>
    if k = key then (if wr then .cons k v e wr rest else .cons k w e wr rest)
    else .cons k w e wr (JSProps.assign extensible rest key v)

/-- Data properties inherited from `Error.prototype`: `message` is the empty
string and `name` is the string Error. -/
def errorPrototype (key : String) : JSVal :=
  if key = "message" then .str ""
  else if key = "name" then .str "Error"
  else .undefined

/-- Property read `v[key]`. Reading a property of `undefined` or `null` raises
a TypeError, which is `none` here. The program reads the keys `status` and
`message` only, and neither exists on the prototypes of strings, numbers and
booleans, so a read on a primitive gives `undefined`. -/
def JSVal.get : JSVal → String → Option JSVal
  | .undefined, _ => none
  | .null, _ => none
  | .obj isError _ props, key =>
    match props.lookup key with
    | some v => some v
    | none => some (if isError then errorPrototype key else .undefined)
  | _, _ => some .undefined

/-- Property write `v[key] = w` in sloppy mode (the module has no strict
directive): on an object the own property is written when the object allows
it (`JSProps.assign`), on a primitive the write is dropped silently, on
`undefined` or `null` a TypeError is raised (`none`). The result is the value
after the write. -/
def JSVal.set : JSVal → String → JSVal → Option JSVal
  | .undefined, _, _ => none
  | .null, _, _ => none
  | .obj isError extensible props, key, w =>
    some (.obj isError extensible (props.assign extensible key w))
  | v, _, _ => some v

/-- The conversion ToBoolean. -/
def JSVal.truthy : JSVal → Bool
  | .undefined => false
  | .null => false
  | .bool b => b
  | .num n => n != 0
  | .nan => false
  | .inf _ => true
  | .str s => s != ""
  | .obj _ _ _ => true

/-- The operator `a || b`. -/
def JSVal.or (a b : JSVal) : JSVal :=
  if a.truthy then a else b

/-- Strict equality `v === n` against a number literal. -/
def JSVal.strictEqNum : JSVal → ℚ → Bool
  | .num m, n => m == n
  | _, _ => false

/-- Value of `new Error(message)`: an extensible Error instance whose own
properties `stack` and `message` are writable and not enumerable. The text of
the stack trace is chosen by the engine and is an input of the model. -/
def newError (message stack : String) : JSVal :=
  .obj true true
    (.cons "stack" (.str stack) false true (.cons "message" (.str message) false true .nil))

/-- Object literal with one property. -/
def objectLiteral (key : String) (value : JSVal) : JSVal :=
  .obj false true (.cons key value true true .nil)

/-! ## JSON serialisation (`JSON.stringify`, used by `res.json`) -/

mutual
/-- JSON documents. -/
inductive Json where
  | null
  | bool (b : Bool)
  | num (n : ℚ)
  | str (s : String)
  | obj (fields : JsonFields)
  deriving DecidableEq
/-- Members of a JSON object, in order. -/
inductive JsonFields where
  | nil
  | cons (key : String) (value : Json) (rest : JsonFields)
  deriving DecidableEq
end

/-- Member lookup in a JSON object. -/
def JsonFields.lookup : JsonFields → String → Option Json
  | .nil, _ => none
  | .cons k v rest, key => if k = key then some v else rest.lookup key

/-- Keys of a JSON object. -/
def JsonFields.keys : JsonFields → List String
  | .nil => []
  | .cons k _ rest => k :: rest.keys

/-- Member of a JSON document: `none` when the document is not an object or
has no such member. -/
def Json.field : Json → String → Option Json
  | .obj fields, key => fields.lookup key
  | _, _ => none

/-- Keys of a JSON document (none for a document that is not an object). -/
def Json.keys : Json → List String
  | .obj fields => fields.keys
  | _ => []

mutual
/-- The abstract operation SerializeJSONProperty of `JSON.stringify`: `none`
is the result `undefined` (the value is left out); `NaN` and the infinities
become `null`. -/
def serializeJSONProperty : JSVal → Option Json
  | .undefined => none
  | .null => some .null
  | .bool b => some (.bool b)
  | .num n => some (.num n)
  | .nan => some .null
  | .inf _ => some .null
  | .str s => some (.str s)
  | .obj _ _ props => some (.obj (serializeJSONObject props))
/-- The abstract operation SerializeJSONObject: the own enumerable properties
whose value serialises to something, in order. -/
def serializeJSONObject : JSProps → JsonFields
  | .nil => .nil
  | .cons k v enumerable _ rest =>
    if enumerable then
      match serializeJSONProperty v with
      | some j => .cons k j (serializeJSONObject rest)
      | none => serializeJSONObject rest
    else serializeJSONObject rest
end

/-! ## Effects and responses -/

/-- Calls a middleware makes on its collaborators, and two markers that end a
trace: `raise` when the last call raised the value, `unmodelled` when what the
last call does is not determined by the model. -/
inductive Effect where
  | consoleError (value : JSVal)
  | resStatus (code : JSVal)
  | resJson (body : JSVal)
  | resEnd
  | next (arg : JSVal)
  | raise (value : JSVal)
  | unmodelled
  deriving DecidableEq

/-- A final response put on the wire: its status code and the object whose
JSON text is its body (`none` for a response without body). -/
structure Response where
  status : JSVal
  body : Option JSVal
  deriving DecidableEq

/-- The JSON document a response carries. -/
def Response.json (r : Response) : Option Json :=
  r.body.bind serializeJSONProperty

/-- State of the framework response object `res`. -/
structure ResState where
  statusCode : JSVal
  sent : List Response
  finished : Bool
  deriving DecidableEq

/-- A fresh response object: status code 200, nothing sent. -/
def ResState.init : ResState :=
  { statusCode := .num 200, sent := [], finished := false }

/-- The conversion ToInt32 of a finite number: truncation towards zero, then
reduction modulo 2^32 into the signed range. -/
def toInt32 (q : ℚ) : Int :=
  let m := (Int.tdiv q.num q.den) % 4294967296
  if 2147483648 ≤ m then m - 4294967296 else m

/-- The integer Node makes of the status code when it writes the head of the
response (`statusCode |= 0`). `NaN` and the infinities convert to 0. The
conversion of strings and objects to numbers is outside the model (`none`). -/
def statusInt32 : JSVal → Option Int
  | .undefined => some 0
  | .null => some 0
  | .bool b => some (if b then 1 else 0)
  | .num q => some (toInt32 q)
  | .nan => some 0
  | .inf _ => some 0
  | .str _ => none
  | .obj _ _ _ => none

/-- What becomes of a response sent under a status code. -/
inductive CodeFate where
  | invalid
  | informational
  | noBody (code : Int)
  | withBody (code : Int)
  | unmodelled
  deriving DecidableEq

/-- Framework semantics of the status code (Express 4 `res.send`, Node
`writeHead`): Node raises a RangeError for a code outside 100..999; a code in
100..199 gives an informational head and no final response; at 304 the
response goes out without body; at 300..999 otherwise it goes out with the
body. At a code in 200..299 `res.send` compares the cache validators of the
request with the response and may answer 304 instead, and from Express 4.18
on it drops the body at 205; the request headers and the version of the
framework are outside the model, so the outcome is left undetermined there,
as it is for strings and objects. -/
def codeFate (statusCode : JSVal) : CodeFate :=
  match statusInt32 statusCode with
  | none => .unmodelled
  | some c =>
    if c < 100 ∨ 999 < c then .invalid
    else if c ≤ 199 then .informational
    else if c ≤ 299 then .unmodelled
    else if c = 304 then .noBody c
    else .withBody c

/-- The error the platform raises from `res.json` or `res.end`: an Error
instance (a RangeError for an invalid status code). The texts of its message
and stack are chosen by the platform and are left out. -/
def platformError : JSVal :=
  .obj true true .nil

/-- How a call ends. -/
inductive Completion where
  | normal
  | raised (value : JSVal)
  | unmodelled
  deriving DecidableEq

/-- Framework semantics of the calls on `res` (Express 4 over Node), for a
request whose response has a body (any method but HEAD):
`res.status` stores the code and checks nothing; `res.json` raises when the
response is finished already or when Node refuses the stored code, and
otherwise sends the response that `codeFate` tells and finishes it; `res.end`
does nothing on a finished response and otherwise sends the head with an
empty body. The other calls and the markers leave the response object
alone. -/
def ResState.step (r : ResState) : Effect → ResState × Completion
  | .resStatus code => ({ r with statusCode := code }, .normal)
  | .resJson body =>
    if r.finished then (r, .raised platformError)
    else
      match codeFate r.statusCode with
      | .invalid => (r, .raised platformError)
      | .informational => ({ r with finished := true }, .normal)
      | .noBody c =>
        ({ r with sent := r.sent ++ [{ status := .num c, body := none }],
                  finished := true }, .normal)
      | .withBody c =>
        ({ r with sent := r.sent ++ [{ status := .num c, body := some body }],
                  finished := true }, .normal)
      | .unmodelled => (r, .unmodelled)
  | .resEnd =>
    if r.finished then (r, .normal)
    else
      match codeFate r.statusCode with
      | .invalid => (r, .raised platformError)
      | .informational => ({ r with finished := true }, .normal)
      | .noBody c =>
        ({ r with sent := r.sent ++ [{ status := .num c, body := none }],
                  finished := true }, .normal)
      | .withBody c =>
        ({ r with sent := r.sent ++ [{ status := .num c, body := none }],
                  finished := true }, .normal)
      | .unmodelled => (r, .unmodelled)
  | _ => (r, .normal)

/-- Runs the calls of a middleware body in program order. The result is the
trace of the calls made and the state of `res` at the end. A call that raises
ends the body: the trace stops there, with the marker `raise`; so it does, with
the marker `unmodelled`, at a call the model does not determine. -/
def perform (r : ResState) : List Effect → List Effect × ResState
  | [] => ([], r)
  | e :: rest =>
    match r.step e with
    | (r1, .normal) => (e :: (perform r1 rest).1, (perform r1 rest).2)
    | (r1, .raised v) => ([e, .raise v], r1)
    | (r1, .unmodelled) => ([e, .unmodelled], r1)

/-- Final responses sent by a trace of calls on a fresh response object. -/
def responsesSent (effects : List Effect) : List Response :=
  (perform ResState.init effects).2.sent

/-- Values written to the diagnostic channel (`console.error`). -/
def consoleLog : List Effect → List JSVal
  | [] => []
  | .consoleError v :: rest => v :: consoleLog rest
  | _ :: rest => consoleLog rest

/-- Arguments of the calls of `next`. -/
def nextCalls : List Effect → List JSVal
  | [] => []
  | .next arg :: rest => arg :: nextCalls rest
  | _ :: rest => nextCalls rest

/-- Values raised in a trace. -/
def raisedValues : List Effect → List JSVal
  | [] => []
  | .raise v :: rest => v :: raisedValues rest
  | _ :: rest => raisedValues rest

/-- Values a trace hands back to the dispatcher, in order: the arguments of
`next` and the values raised (the framework catches a raised value and calls
`next` with it). -/
def forwarded : List Effect → List JSVal
  | [] => []
  | .next arg :: rest => arg :: forwarded rest
  | .raise v :: rest => v :: forwarded rest
  | _ :: rest => forwarded rest

/-- Arguments of the calls of `res.status`. -/
def statusCalls : List Effect → List JSVal
  | [] => []
  | .resStatus code :: rest => code :: statusCalls rest
  | _ :: rest => statusCalls rest

/-- Arguments of the calls of `res.json`. -/
def jsonCalls : List Effect → List JSVal
  | [] => []
  | .resJson body :: rest => body :: jsonCalls rest
  | _ :: rest => jsonCalls rest

/-- Number of calls of `res.end`. -/
def endCalls : List Effect → Nat
  | [] => 0
  | .resEnd :: rest => endCalls rest + 1
  | _ :: rest => endCalls rest

/-- Whether an effect touches the response object. -/
def Effect.writesResponse : Effect → Bool
  | .resStatus _ => true
  | .resJson _ => true
  | .resEnd => true
  | _ => false

/-- A valid HTTP status code, in the words of the specification: an integer
in the range 100..599. -/
def validHttpStatus : JSVal → Bool
  | .num n => decide (n.den = 1 ∧ 100 ≤ n.num ∧ n.num ≤ 599)
  | _ => false

/-! ## The two middlewares -/

/-- Outcome of running a middleware body: the error object as the body left
it, and the trace of the calls it made. -/
structure Run where
  error : JSVal
  effects : List Effect
  deriving DecidableEq

/-- The test `process.env.NODE_ENV != 'production'`; an unset variable reads
as `undefined`. -/
def notProduction (nodeEnv : Option String) : Bool :=
  nodeEnv != some "production"

/-- The not-found middleware, `app.js` lines 201-218. -/
def notFound (stack : String) : Option Run := do
  -- 1. let error = new Error("Not Found")
  let error := newError "Not Found" stack
  -- 2. error.status = 404
  let error ← error.set "status" (.num 404)
  -- -> next(error)
  pure { error := error, effects := [.next error] }

/-- The error formatter, `app.js` lines 223-278, run on a response object on
which nothing has been sent. -/
def errorFormatter (nodeEnv : Option String) (error : JSVal) : Option Run := do
  -- 1. let status = error.status || 500
  let status := (← error.get "status").or (.num 500)
  -- 2. if(status === 500) error.status = 500
  let error ← if status.strictEqNum 500 then error.set "status" (.num 500) else pure error
  -- 3. let obj_message = { message: error.message }
  let obj_message := objectLiteral "message" (← error.get "message")
  -- 4. if(process.env.NODE_ENV != 'production')
  let (obj_message, logged) ←
    if notProduction nodeEnv then do
      -- obj_message.error = error
      let obj_message ← obj_message.set "error" error
      -- console.error(error)
      pure (obj_message, [Effect.consoleError error])
    else
      pure (obj_message, [])
  -- 6. res.status(status); 7. res.json(obj_message); res.end()
  pure { error := error,
         effects := (perform ResState.init
           (logged ++ [.resStatus status, .resJson obj_message, .resEnd])).1 }

/-- The error formatter with step 2 (the write of `error.status`) left out:
the formatter "had the condition's status been left unset". It is the
comparison point for the effect of the mutation, not part of the program. -/
def errorFormatterNoMutation (nodeEnv : Option String) (error : JSVal) : Option Run := do
  let status := (← error.get "status").or (.num 500)
  let obj_message := objectLiteral "message" (← error.get "message")
  let (obj_message, logged) ←
    if notProduction nodeEnv then do
      let obj_message ← obj_message.set "error" error
      pure (obj_message, [Effect.consoleError error])
    else
      pure (obj_message, [])
  pure { error := error,
         effects := (perform ResState.init
           (logged ++ [.resStatus status, .resJson obj_message, .resEnd])).1 }

/-! ## The pipeline -/

/-- The stages registered with `app.use`. -/
inductive Stage where
  | cookieParser
  | ravenRequestHandler
  | compression
  | helmetHsts
  | helmetNoCache
  | helmetContentSecurityPolicy
  | expressStatic
  | logger
  | bodyParserJson
  | bodyParserUrlencoded
  | routesHttps
  | ravenErrorHandler
  | notFound
  | errorFormatter
  deriving DecidableEq, Repr

/-- The order of the `app.use` calls, `app.js` lines 87, 92, 97, 105, 115,
120, 152, 157, 162, 167, 179, 194, 201 and 223. -/
def appStack : List Stage :=
  [.cookieParser, .ravenRequestHandler, .compression, .helmetHsts, .helmetNoCache,
   .helmetContentSecurityPolicy, .expressStatic, .logger, .bodyParserJson,
   .bodyParserUrlencoded, .routesHttps, .ravenErrorHandler, .notFound, .errorFormatter]

/-- Stages that serve routes: the static files and the routes module. -/
def Stage.servesRoutes : Stage → Bool
  | .expressStatic => true
  | .routesHttps => true
  | _ => false

/-- Stages whose function takes four arguments `(error, req, res, next)`: the
framework calls them only while an error is pending. They are the function
returned by `raven.errorHandler()` and the error formatter. -/
def Stage.isErrorHandler : Stage → Bool
  | .ravenErrorHandler => true
  | .errorFormatter => true
  | _ => false

/-- One invocation of a stage by the dispatcher: the pending error it was
handed (`undefined` when there is none) and the calls it made. -/
structure Call where
  stage : Stage
  arg : JSVal
  effects : List Effect
  deriving DecidableEq

/-- Behaviour of the stages: the two custom middlewares are the functions
above, the library stages are given by `ext`. The result is `none` when the
stage raises a TypeError on a property read. -/
def handle (ext : Stage → JSVal → List Effect) (nodeEnv : Option String) (stack : String) :
    Stage → JSVal → Option (List Effect)
  | .notFound, _ => (notFound stack).map Run.effects
  | .errorFormatter, error => (errorFormatter nodeEnv error).map Run.effects
  | stage, arg => some (ext stage arg)

/-- The dispatcher of the framework (the function `next` of the Express 4
router) over stages mounted without a path: a stage is invoked when the
pending error is truthy and the stage is an error handler, or when there is
no error and it is not; the other stages are skipped. After the call the
dispatcher goes on with the value the stage handed back, the argument it gave
to `next` or the value it raised (the framework catches it and calls `next`
with it), where the string route stands for no error and the string router
leaves the pipeline; it stops when the stage handed nothing back. What the
framework does once the stack is exhausted (its final handler, which answers
a pending error itself) is outside the model, and so is what follows a trace
that ends undetermined or a run that raises on a property read; the two
custom middlewares do not raise there when the dispatcher calls them
(`notFound_eq`, `errorFormatter_eq`). -/
def dispatch (h : Stage → JSVal → Option (List Effect)) : List Stage → JSVal → List Call
  | [], _ => []
  | stage :: rest, layerError =>
    if layerError.truthy = stage.isErrorHandler then
      match h stage layerError with
      | none => [{ stage := stage, arg := layerError, effects := [] }]
      | some effects =>
        { stage := stage, arg := layerError, effects := effects } ::
          match forwarded effects with
          | [] => []
          | arg :: _ =>
            if arg = .str "router" then []
            else dispatch h rest (if arg = .str "route" then .null else arg)
    else dispatch h rest layerError

/-- All the calls made during a dispatch, in order. -/
def allEffects (calls : List Call) : List Effect :=
  calls.foldr (fun c acc => c.effects ++ acc) []

/-- A library stage that hands over what it was given: `next()` when there is
no error, `next(error)` for an error handler. -/
def passThrough (_ : Stage) (arg : JSVal) : List Effect :=
  [.next arg]

/-! ## Closed forms used by the lemmas -/

/-- The error object the not-found middleware builds and hands to `next`
(see `notFound_eq`). -/
def notFoundError (stack : String) : JSVal :=
  .obj true true (.cons "stack" (.str stack) false true
    (.cons "message" (.str "Not Found") false true (.cons "status" (.num 404) true true .nil)))

/-- The body the formatter gives to `res.json` (see `errorFormatter_eq`). -/
def formatterBody (nodeEnv : Option String) (error message : JSVal) : JSVal :=
  .obj false true (.cons "message" message true true
    (if notProduction nodeEnv then .cons "error" error true true .nil else .nil))

/-- The calls the formatter is to make, in program order (see
`errorFormatter_eq`). -/
def formatterPlan (nodeEnv : Option String) (error status message : JSVal) : List Effect :=
  (if notProduction nodeEnv then [Effect.consoleError error] else []) ++
    [.resStatus status, .resJson (formatterBody nodeEnv error message), .resEnd]

/-- The trace of the formatter: its calls up to the first that does not end
normally. -/
def formatterTrace (nodeEnv : Option String) (error status message : JSVal) : List Effect :=
  (perform ResState.init (formatterPlan nodeEnv error status message)).1

/-! ## Lemmas on property access -/

/-- Reading the key just written on an extensible object without that key
gives the written value. -/
theorem JSProps.lookup_assign_new : ∀ (props : JSProps) (key : String) (v : JSVal),
    props.lookup key = none → (props.assign true key v).lookup key = some v
  | .nil, key, v, _ => by simp [JSProps.assign, JSProps.lookup]
  | .cons k w e wr rest, key, v, h => by
    by_cases hk : k = key
    · simp [JSProps.lookup, hk] at h
    · simp [JSProps.lookup, hk] at h
      simp [JSProps.assign, JSProps.lookup, hk, JSProps.lookup_assign_new rest key v h]

/-- A write on an object that is not extensible and has no such key is
dropped. -/
theorem JSProps.assign_not_extensible : ∀ (props : JSProps) (key : String) (v : JSVal),
    props.lookup key = none → props.assign false key v = props
  | .nil, key, v, _ => by simp [JSProps.assign]
  | .cons k w e wr rest, key, v, h => by
    by_cases hk : k = key
    · simp [JSProps.lookup, hk] at h
    · simp [JSProps.lookup, hk] at h
      simp [JSProps.assign, hk, JSProps.assign_not_extensible rest key v h]

/-- A write leaves the other keys as they were. -/
theorem JSProps.lookup_assign_of_ne : ∀ (x : Bool) (props : JSProps) (key other : String)
    (v : JSVal), key ≠ other → (props.assign x key v).lookup other = props.lookup other
  | x, .nil, key, other, v, hne => by
    cases x <;> simp [JSProps.assign, JSProps.lookup, hne]
  | x, .cons k w e wr rest, key, other, v, hne => by
    by_cases hk : k = key
    · subst hk
      cases wr <;> simp [JSProps.assign, JSProps.lookup, hne]
    · by_cases ho : k = other
      · subst ho
        simp [JSProps.assign, JSProps.lookup, hk]
      · simp [JSProps.assign, JSProps.lookup, hk, ho,
          JSProps.lookup_assign_of_ne x rest key other v hne]

/-- Writing `status` does not change what `message` reads. -/
theorem JSVal.get_message_set_status (error e2 : JSVal) (w : JSVal)
    (h : error.set "status" w = some e2) : e2.get "message" = error.get "message" := by
  cases error <;> simp [JSVal.set] at h <;> subst h <;> try rfl
  simp [JSVal.get, JSProps.lookup_assign_of_ne _ _ "status" "message" w (by decide)]

/-- Every property read succeeds on a truthy value. -/
theorem JSVal.get_of_truthy (error : JSVal) (key : String) (h : error.truthy = true) :
    ∃ v, error.get key = some v := by
  cases error <;> simp [JSVal.truthy] at h <;> simp [JSVal.get]
  split <;> simp

/-- A write keeps a value truthy. -/
theorem JSVal.truthy_of_set (error e2 w : JSVal) (key : String) (h : error.truthy = true)
    (hset : error.set key w = some e2) : e2.truthy = true := by
  cases error <;> simp [JSVal.set] at hset <;> subst hset <;> exact h

/-! ## Lemmas on the status code -/

/-- The conversion ToInt32 leaves the integers from 0 to 999 as they are. -/
theorem toInt32_intCast (S : Int) (h1 : 0 ≤ S) (h2 : S ≤ 999) : toInt32 (S : ℚ) = S := by
  simp only [toInt32, Rat.intCast_num, Rat.intCast_den, Nat.cast_one, Int.tdiv_one]
  have : S % 4294967296 = S := Int.emod_eq_of_lt h1 (by omega)
  rw [this]
  split <;> omega

/-- An integer code from 300 to 999 other than 304 goes out with the body. -/
theorem codeFate_withBody (S : Int) (h1 : 300 ≤ S) (h2 : S ≤ 999) (h304 : S ≠ 304) :
    codeFate (.num (S : ℚ)) = .withBody S := by
  have hi := toInt32_intCast S (by omega) h2
  simp only [codeFate, statusInt32, hi]
  rw [if_neg (by omega), if_neg (by omega), if_neg (by omega), if_neg h304]

/-- The code 500 goes out with the body. -/
theorem codeFate_500 : codeFate (.num 500) = .withBody 500 := by decide

/-- The code 404 goes out with the body. -/
theorem codeFate_404 : codeFate (.num 404) = .withBody 404 := by decide

/-- An integer code below 100 or above 999 is refused. -/
theorem codeFate_invalid (S : Int) (h : S < 100 ∨ 999 < S) (hlo : -2147483648 ≤ S)
    (hhi : S ≤ 2147483647) : codeFate (.num (S : ℚ)) = .invalid := by
  have hi : toInt32 (S : ℚ) = S := by
    simp only [toInt32, Rat.intCast_num, Rat.intCast_den, Nat.cast_one, Int.tdiv_one]
    split <;> omega
  simp only [codeFate, statusInt32, hi]
  rw [if_pos h]

/-! ## The trace of the formatter -/

/-- The calls of the formatter that are made whatever becomes of the
response: one call of `res.status`, one of `res.json`, the diagnostic line
outside production, and no call of `next`. -/
theorem formatterTrace_calls (nodeEnv : Option String) (error status message : JSVal) :
    statusCalls (formatterTrace nodeEnv error status message) = [status] ∧
    jsonCalls (formatterTrace nodeEnv error status message) =
      [formatterBody nodeEnv error message] ∧
    consoleLog (formatterTrace nodeEnv error status message) =
      (if notProduction nodeEnv then [error] else []) ∧
    nextCalls (formatterTrace nodeEnv error status message) = [] := by
  unfold formatterTrace formatterPlan
  cases hp : notProduction nodeEnv <;> cases hf : codeFate status <;>
    simp [perform, ResState.step, ResState.init, hf, statusCalls, jsonCalls, consoleLog,
      nextCalls]

/-- When the code goes out with the body, every call of the formatter is made,
`res.end` included, nothing is raised or handed back, and one response is
sent, with the code and the body; the response is finished. -/
theorem formatterTrace_withBody (nodeEnv : Option String) (error status message : JSVal)
    (c : Int) (hf : codeFate status = .withBody c) :
    formatterTrace nodeEnv error status message =
      formatterPlan nodeEnv error status message ∧
    endCalls (formatterTrace nodeEnv error status message) = 1 ∧
    forwarded (formatterTrace nodeEnv error status message) = [] ∧
    responsesSent (formatterTrace nodeEnv error status message) =
      [⟨.num c, some (formatterBody nodeEnv error message)⟩] ∧
    (perform ResState.init (formatterTrace nodeEnv error status message)).2.finished
      = true := by
  unfold responsesSent formatterTrace formatterPlan
  cases hp : notProduction nodeEnv <;>
    simp [perform, ResState.step, ResState.init, hf, endCalls, forwarded]

/-- When the code goes out without body (304), every call of the
formatter is made and one response is sent, with the code and no body. -/
theorem formatterTrace_noBody (nodeEnv : Option String) (error status message : JSVal)
    (c : Int) (hf : codeFate status = .noBody c) :
    endCalls (formatterTrace nodeEnv error status message) = 1 ∧
    forwarded (formatterTrace nodeEnv error status message) = [] ∧
    responsesSent (formatterTrace nodeEnv error status message) = [⟨.num c, none⟩] ∧
    (perform ResState.init (formatterTrace nodeEnv error status message)).2.finished
      = true := by
  unfold responsesSent formatterTrace formatterPlan
  cases hp : notProduction nodeEnv <;>
    simp [perform, ResState.step, ResState.init, hf, endCalls, forwarded]

/-- When Node refuses the code, `res.json` raises: `res.end` is not called, no
response is sent, the response is not finished, and the raised error is
handed back to the dispatcher. -/
theorem formatterTrace_invalid (nodeEnv : Option String) (error status message : JSVal)
    (hf : codeFate status = .invalid) :
    endCalls (formatterTrace nodeEnv error status message) = 0 ∧
    forwarded (formatterTrace nodeEnv error status message) = [platformError] ∧
    responsesSent (formatterTrace nodeEnv error status message) = [] ∧
    (perform ResState.init (formatterTrace nodeEnv error status message)).2.finished
      = false := by
  unfold responsesSent formatterTrace formatterPlan
  cases hp : notProduction nodeEnv <;>
    simp [perform, ResState.step, ResState.init, hf, endCalls, forwarded]

/-! ## The middlewares in closed form -/

/-- On a truthy error the formatter returns; its trace is the trace of its
planned calls on the error as step 2 left it, with the resolved status and
the message read from the error. -/
theorem errorFormatter_eq (nodeEnv : Option String) (error : JSVal) (h : error.truthy = true) :
    ∃ s e2 m, error.get "status" = some s ∧
      (if (s.or (.num 500)).strictEqNum 500 then error.set "status" (.num 500) else some error)
        = some e2 ∧
      error.get "message" = some m ∧
      errorFormatter nodeEnv error = some
        { error := e2, effects := formatterTrace nodeEnv e2 (s.or (.num 500)) m } := by
  obtain ⟨s, hs⟩ := JSVal.get_of_truthy error "status" h
  obtain ⟨e2, he2⟩ : ∃ e2, (if (s.or (.num 500)).strictEqNum 500 then
      error.set "status" (.num 500) else some error) = some e2 := by
    split
    · cases error <;> simp [JSVal.truthy] at h <;> simp [JSVal.set]
    · exact ⟨_, rfl⟩
  have hm2 : e2.get "message" = error.get "message" := by
    split at he2
    · exact JSVal.get_message_set_status _ _ _ he2
    · cases he2; rfl
  obtain ⟨m, hm⟩ := JSVal.get_of_truthy error "message" h
  refine ⟨s, e2, m, hs, he2, hm, ?_⟩
  rw [← hm2] at hm
  unfold errorFormatter formatterTrace formatterPlan formatterBody
  by_cases hc : (s.or (.num 500)).strictEqNum 500 = true
  · rw [if_pos hc] at he2
    cases hp : notProduction nodeEnv <;>
      simp [hs, he2, hm, hp, hc, objectLiteral, pure, bind, Option.bind]
    simp [JSVal.set, JSProps.assign]
  · rw [if_neg hc] at he2
    cases he2
    cases hp : notProduction nodeEnv <;>
      simp [hs, hm, hp, hc, objectLiteral, pure, bind, Option.bind]
    simp [JSVal.set, JSProps.assign]

/-- The formatter without the write of `status`, in closed form. -/
theorem errorFormatterNoMutation_eq (nodeEnv : Option String) (error : JSVal)
    (h : error.truthy = true) :
    ∃ s m, error.get "status" = some s ∧ error.get "message" = some m ∧
      errorFormatterNoMutation nodeEnv error = some
        { error := error, effects := formatterTrace nodeEnv error (s.or (.num 500)) m } := by
  obtain ⟨s, hs⟩ := JSVal.get_of_truthy error "status" h
  obtain ⟨m, hm⟩ := JSVal.get_of_truthy error "message" h
  refine ⟨s, m, hs, hm, ?_⟩
  unfold errorFormatterNoMutation formatterTrace formatterPlan formatterBody
  cases hp : notProduction nodeEnv <;>
    simp [hs, hm, hp, objectLiteral, pure, bind, Option.bind]
  simp [JSVal.set, JSProps.assign]

/-- The not-found middleware returns, with the error it built and one call of
`next`. -/
theorem notFound_eq (stack : String) :
    notFound stack = some
      { error := notFoundError stack, effects := [.next (notFoundError stack)] } := by
  simp [notFound, notFoundError, newError, JSVal.set, JSProps.assign, pure, bind, Option.bind]

/-- The formatter run on the error built by the not-found middleware. -/
theorem errorFormatter_notFound (nodeEnv : Option String) (stack : String) :
    errorFormatter nodeEnv (notFoundError stack) = some
      { error := notFoundError stack,
        effects := formatterTrace nodeEnv (notFoundError stack) (.num 404) (.str "Not Found") } := by
  obtain ⟨s, e2, m, hs, he2, hm, hrun⟩ := errorFormatter_eq nodeEnv (notFoundError stack) rfl
  have hs2 : s = .num 404 := by
    have : (notFoundError stack).get "status" = some (.num 404) := rfl
    rw [this] at hs
    exact (Option.some.inj hs).symm
  have hm2 : m = .str "Not Found" := by
    have : (notFoundError stack).get "message" = some (.str "Not Found") := rfl
    rw [this] at hm
    exact (Option.some.inj hm).symm
  subst hs2 hm2
  have hor : (JSVal.num 404).or (.num 500) = .num 404 := by decide
  have hne : ((JSVal.num 404).strictEqNum 500) = false := by decide
  rw [hor] at he2 hrun
  rw [hne] at he2
  have he : e2 = notFoundError stack := by simpa using he2.symm
  subst he
  exact hrun

/-- The dispatcher on the terminal pair: with no pending error the not-found
middleware runs, then the formatter on the error it built. -/
theorem dispatch_terminal_pair_of_falsy (ext : Stage → JSVal → List Effect)
    (nodeEnv : Option String) (stack : String) (layerError : JSVal)
    (h : layerError.truthy = false) :
    dispatch (handle ext nodeEnv stack) [.notFound, .errorFormatter] layerError =
      [⟨.notFound, layerError, [.next (notFoundError stack)]⟩,
       ⟨.errorFormatter, notFoundError stack,
        formatterTrace nodeEnv (notFoundError stack) (.num 404) (.str "Not Found")⟩] := by
  have hne1 : notFoundError stack ≠ .str "router" := by simp [notFoundError]
  have hne2 : notFoundError stack ≠ .str "route" := by simp [notFoundError]
  have ht : (notFoundError stack).truthy = true := rfl
  simp [dispatch, handle, notFound_eq, errorFormatter_notFound, forwarded, h, ht, hne1, hne2,
    Stage.isErrorHandler, (formatterTrace_withBody nodeEnv _ _ _ 404 codeFate_404).2.2.1]

/-- The dispatcher on a stack that starts with the formatter: with a pending
error the formatter runs, and when its trace hands nothing back no later
stage does. -/
theorem dispatch_formatter_of_truthy (ext : Stage → JSVal → List Effect)
    (nodeEnv : Option String) (stack : String) (rest : List Stage) (error : JSVal) (r : Run)
    (h : error.truthy = true) (hr : errorFormatter nodeEnv error = some r)
    (hf : forwarded r.effects = []) :
    dispatch (handle ext nodeEnv stack) (.errorFormatter :: rest) error =
      [⟨.errorFormatter, error, r.effects⟩] := by
  simp [dispatch, handle, hr, h, Stage.isErrorHandler, hf]

/-- With a pending error the dispatcher skips the not-found middleware. -/
theorem dispatch_skip_notFound (ext : Stage → JSVal → List Effect)
    (nodeEnv : Option String) (stack : String) (rest : List Stage) (error : JSVal)
    (h : error.truthy = true) :
    dispatch (handle ext nodeEnv stack) (.notFound :: rest) error =
      dispatch (handle ext nodeEnv stack) rest error := by
  rw [dispatch]
  simp [h, Stage.isErrorHandler]

/-! ## Lemmas on the serialisation -/

/-- Only `undefined` is left out by the serialisation. -/
theorem serializeJSONProperty_eq_none (v : JSVal) :
    serializeJSONProperty v = none ↔ v = .undefined := by
  cases v <;> simp [serializeJSONProperty]

/-- The member `message` of the serialised body comes from the first
property. -/
theorem serializeJSONObject_message (m : JSVal) (w : Bool) (rest : JSProps) :
    (serializeJSONObject (.cons "message" m true w rest)).lookup "message" =
      match serializeJSONProperty m with
      | some j => some j
      | none => (serializeJSONObject rest).lookup "message" := by
  cases hser : serializeJSONProperty m <;> simp [serializeJSONObject, hser, JsonFields.lookup]

/-- The body of the formatter: its property `message`, and the member
`message` of its serialisation. -/
theorem formatterBody_message (nodeEnv : Option String) (error m : JSVal) :
    (formatterBody nodeEnv error m).get "message" = some m ∧
    ∃ fields, serializeJSONProperty (formatterBody nodeEnv error m) = some (.obj fields) ∧
      fields.lookup "message" = serializeJSONProperty m := by
  unfold formatterBody
  refine ⟨by simp [JSVal.get, JSProps.lookup], _, rfl, ?_⟩
  rw [serializeJSONObject_message]
  cases hm : serializeJSONProperty m
  · cases hp : notProduction nodeEnv
    · simp [serializeJSONObject, JsonFields.lookup]
    · cases hse : serializeJSONProperty error <;>
        simp [serializeJSONObject, JsonFields.lookup, hse]
  · rfl

/-- Outside production the serialised body of the formatter has the member
`error`, the serialisation of the error. -/
theorem formatterBody_error (nodeEnv : Option String) (error m : JSVal)
    (hp : notProduction nodeEnv = true) (h : error.truthy = true) :
    ∃ fields j, serializeJSONProperty (formatterBody nodeEnv error m) = some (.obj fields) ∧
      serializeJSONProperty error = some j ∧ fields.lookup "error" = some j := by
  obtain ⟨j, hj⟩ : ∃ j, serializeJSONProperty error = some j := by
    cases error <;> simp [JSVal.truthy] at h <;> simp [serializeJSONProperty]
  refine ⟨_, j, rfl, hj, ?_⟩
  cases hm : serializeJSONProperty m <;>
    simp [hp, serializeJSONObject, JsonFields.lookup, hm, hj]

/-- In production the serialised body of the formatter has no key other than
`message`. -/
theorem formatterBody_keys_production (nodeEnv : Option String) (error m : JSVal)
    (hp : notProduction nodeEnv = false) :
    ∃ fields, serializeJSONProperty (formatterBody nodeEnv error m) = some (.obj fields) ∧
      ∀ k ∈ fields.keys, k = "message" := by
  refine ⟨_, rfl, ?_⟩
  intro k hk
  cases hser : serializeJSONProperty m <;>
    simp [hp, serializeJSONObject, hser, JsonFields.keys] at hk
  exact hk

/-- An integer code from 300 to 999 goes out, with or without body. -/
theorem codeFate_sends (S : Int) (h1 : 300 ≤ S) (h2 : S ≤ 999) :
    codeFate (.num (S : ℚ)) = .withBody S ∨ codeFate (.num (S : ℚ)) = .noBody S := by
  have hi := toInt32_intCast S (by omega) h2
  simp only [codeFate, statusInt32, hi]
  rw [if_neg (by omega), if_neg (by omega), if_neg (by omega)]
  by_cases hb : S = 304
  · rw [if_pos hb]
    exact Or.inr rfl
  · rw [if_neg hb]
    exact Or.inl rfl

/-- When the code goes out, with or without body, one response is sent with
it, `res.end` is called, nothing is handed back and the response is
finished. -/
theorem formatterTrace_sent (nodeEnv : Option String) (error status message : JSVal)
    (c : Int) (hf : codeFate status = .withBody c ∨ codeFate status = .noBody c) :
    endCalls (formatterTrace nodeEnv error status message) = 1 ∧
    forwarded (formatterTrace nodeEnv error status message) = [] ∧
    (responsesSent (formatterTrace nodeEnv error status message)).map Response.status
      = [.num c] ∧
    (perform ResState.init (formatterTrace nodeEnv error status message)).2.finished
      = true := by
  rcases hf with hf | hf
  · obtain ⟨-, h1, h2, h3, h4⟩ := formatterTrace_withBody nodeEnv error status message c hf
    exact ⟨h1, h2, by rw [h3]; rfl, h4⟩
  · obtain ⟨h1, h2, h3, h4⟩ := formatterTrace_noBody nodeEnv error status message c hf
    exact ⟨h1, h2, by rw [h3]; rfl, h4⟩

/-- A falsy status resolves to 500. -/
theorem JSVal.or_500_of_falsy (s : JSVal) (h : s.truthy = false) :
    s.or (.num 500) = .num 500 := by
  simp [JSVal.or, h]

/-- A truthy status resolves to itself. -/
theorem JSVal.or_500_of_truthy (s : JSVal) (h : s.truthy = true) :
    s.or (.num 500) = s := by
  simp [JSVal.or, h]

/-- No marker of a raised value in the trace of a call that goes out. -/
theorem formatterTrace_raisedValues (nodeEnv : Option String) (error status message : JSVal)
    (c : Int) (hf : codeFate status = .withBody c ∨ codeFate status = .noBody c) :
    raisedValues (formatterTrace nodeEnv error status message) = [] := by
  unfold formatterTrace formatterPlan
  rcases hf with hf | hf <;> cases hp : notProduction nodeEnv <;>
    simp [perform, ResState.step, ResState.init, hf, raisedValues]

/-! ## The claims -/

/-- C1: for a request that matches no route, in either environment mode and
whatever the library stages do, the not-found middleware returns an error
with message Not Found and status 404 and hands it to one call of `next`; the
dispatcher then runs the formatter on that error, and the run sends one
response, whose status is 404 and whose body has Not Found as `message`, both
in the object given to `res.json` and in the JSON document sent. -/
theorem unmatched_route_yields_404 (ext : Stage → JSVal → List Effect)
    (nodeEnv : Option String) (stack : String) :
    ∃ e, notFound stack = some { error := e, effects := [.next e] } ∧
      e.get "message" = some (.str "Not Found") ∧
      e.get "status" = some (.num 404) ∧
      ∃ fx, (errorFormatter nodeEnv e).map Run.effects = some fx ∧
        dispatch (handle ext nodeEnv stack) [.notFound, .errorFormatter] .undefined =
          [⟨.notFound, .undefined, [.next e]⟩, ⟨.errorFormatter, e, fx⟩] ∧
        ∃ body json, responsesSent fx = [⟨.num 404, some body⟩] ∧
          body.get "message" = some (.str "Not Found") ∧
          serializeJSONProperty body = some json ∧
          json.field "message" = some (.str "Not Found") := by
  obtain ⟨hget, fields, hser, hfield⟩ :=
    formatterBody_message nodeEnv (notFoundError stack) (.str "Not Found")
  obtain ⟨-, -, -, hsent, -⟩ := formatterTrace_withBody nodeEnv (notFoundError stack)
    (.num 404) (.str "Not Found") 404 codeFate_404
  refine ⟨notFoundError stack, notFound_eq stack, rfl, rfl, _,
    by rw [errorFormatter_notFound]; rfl,
    dispatch_terminal_pair_of_falsy ext nodeEnv stack .undefined rfl, _, _,
    by simpa using hsent, hget, hser, ?_⟩
  simpa [Json.field, serializeJSONProperty] using hfield

/-- C2, as stated, fails: the plain object with `status: 0` and
`message: "Zero"` carries an explicit numeric status other than 500, and the
formatter answers with status 500, not 0. -/
theorem explicit_status_zero_is_replaced :
    ∃ r, errorFormatter (some "production")
        (.obj false true (.cons "status" (.num 0) true true
          (.cons "message" (.str "Zero") true true .nil))) = some r ∧
      (responsesSent r.effects).map Response.status = [.num 500] ∧
      (responsesSent r.effects).map Response.status ≠ [.num 0] :=
  ⟨_, rfl, by decide, by decide⟩

/-- C2, amended: for every error whose `status` reads as a number S other than
0 and whose `message` reads as the text M, in either environment mode, the
formatter returns, calls `res.status` with S and `res.json` with a body that
has M as `message`, both as a property of the object and as a member of its
JSON text; and when S is an integer from 300 to 999 other than 304, one
response is sent, with status S and with that body. -/
theorem explicit_status_is_kept (nodeEnv : Option String) (error : JSVal) (q : ℚ)
    (M : String) (hS : error.get "status" = some (.num q))
    (hM : error.get "message" = some (.str M)) (h0 : q ≠ 0) :
    ∃ r, errorFormatter nodeEnv error = some r ∧
      ∃ body json, statusCalls r.effects = [.num q] ∧ jsonCalls r.effects = [body] ∧
        body.get "message" = some (.str M) ∧
        serializeJSONProperty body = some json ∧
        json.field "message" = some (.str M) ∧
        ∀ S : Int, q = S → 300 ≤ S → S ≤ 999 → S ≠ 304 →
          responsesSent r.effects = [⟨.num q, some body⟩] := by
  have ht : error.truthy = true := by
    cases error <;> simp [JSVal.get] at hS
    rfl
  obtain ⟨s, e2, m, hs, -, hm, hrun⟩ := errorFormatter_eq nodeEnv error ht
  rw [hS] at hs
  rw [hM] at hm
  cases hs
  cases hm
  have hor : (JSVal.num q).or (.num 500) = .num q := by
    simp [JSVal.or, JSVal.truthy, h0]
  rw [hor] at hrun
  obtain ⟨hget, fields, hser, hfield⟩ := formatterBody_message nodeEnv e2 (.str M)
  obtain ⟨hst, hjs, -, -⟩ := formatterTrace_calls nodeEnv e2 (.num q) (.str M)
  refine ⟨_, hrun, _, _, hst, hjs, hget, hser, ?_, ?_⟩
  · simpa [Json.field, serializeJSONProperty] using hfield
  · intro S hq h1 h2 h304
    subst hq
    exact (formatterTrace_withBody nodeEnv e2 _ _ S
      (codeFate_withBody S h1 h2 h304)).2.2.2.1

/-- Scenario B of the specification: status 403 and message Forbidden, in
production; the response has status 403. -/
theorem explicit_status_is_kept_witness :
    (JSVal.obj false true (.cons "status" (.num 403) true true
      (.cons "message" (.str "Forbidden") true true .nil))).get "status" = some (.num 403) ∧
    (JSVal.obj false true (.cons "status" (.num 403) true true
      (.cons "message" (.str "Forbidden") true true .nil))).get "message"
        = some (.str "Forbidden") ∧
    (403 : ℚ) ≠ 0 ∧
    ∃ r, errorFormatter (some "production") (.obj false true (.cons "status" (.num 403)
        true true (.cons "message" (.str "Forbidden") true true .nil))) = some r ∧
      ∃ body json, statusCalls r.effects = [.num 403] ∧ jsonCalls r.effects = [body] ∧
        body.get "message" = some (.str "Forbidden") ∧
        serializeJSONProperty body = some json ∧
        json.field "message" = some (.str "Forbidden") ∧
        ∀ S : Int, (403 : ℚ) = S → 300 ≤ S → S ≤ 999 → S ≠ 304 →
          responsesSent r.effects = [⟨.num 403, some body⟩] :=
  ⟨rfl, rfl, by decide,
    explicit_status_is_kept (some "production") _ 403 "Forbidden" rfl rfl (by decide)⟩

/-- C3: for every error that reaches the formatter, in either environment
mode, the formatter returns and calls `res.status` exactly once, and the code
it sets is the value of `error.status` when that value is truthy and 500
otherwise; in particular, when `error.status` is `undefined` (no status) or is
exactly 500, the response sent has status 500. (When the code set is an
integer from 300 to 999, the response sent has that status too.) -/
theorem response_status_is_status_or_500 (nodeEnv : Option String) (error : JSVal)
    (h : error.truthy = true) :
    ∃ s r, error.get "status" = some s ∧ errorFormatter nodeEnv error = some r ∧
      statusCalls r.effects = [if s.truthy then s else .num 500] ∧
      ((s = .undefined ∨ s = .num 500) →
        (responsesSent r.effects).map Response.status = [.num 500]) ∧
      (∀ S : Int, s = .num S → 300 ≤ S → S ≤ 999 →
        (responsesSent r.effects).map Response.status = [.num S]) := by
  obtain ⟨s, e2, m, hs, -, -, hrun⟩ := errorFormatter_eq nodeEnv error h
  obtain ⟨hst, -, -, -⟩ := formatterTrace_calls nodeEnv e2 (s.or (.num 500)) m
  refine ⟨s, _, hs, hrun, hst, ?_, ?_⟩
  · intro hcase
    have hor : s.or (.num 500) = .num 500 := by
      rcases hcase with rfl | rfl <;> rfl
    simp only [hor]
    have hsent := (formatterTrace_withBody nodeEnv e2 (.num 500) m 500 codeFate_500).2.2.2.1
    rw [hsent]
    simp
  · intro S hS h1 h2
    subst hS
    have ht : (JSVal.num (S : ℚ)).truthy = true := by
      have : (S : ℚ) ≠ 0 := by
        have : S ≠ 0 := by omega
        exact_mod_cast this
      simp [JSVal.truthy, this]
    simp only [JSVal.or_500_of_truthy _ ht]
    exact (formatterTrace_sent nodeEnv e2 _ m S (codeFate_sends S h1 h2)).2.2.1

/-- Scenario C of the specification: a plain error with no status, in
production. -/
theorem response_status_is_status_or_500_witness :
    (newError "boom" "at app.js").truthy = true ∧
    ∃ s r, (newError "boom" "at app.js").get "status" = some s ∧
      errorFormatter (some "production") (newError "boom" "at app.js") = some r ∧
      statusCalls r.effects = [if s.truthy then s else .num 500] ∧
      ((s = .undefined ∨ s = .num 500) →
        (responsesSent r.effects).map Response.status = [.num 500]) ∧
      (∀ S : Int, s = .num S → 300 ≤ S → S ≤ 999 →
        (responsesSent r.effects).map Response.status = [.num S]) :=
  ⟨rfl, response_status_is_status_or_500 (some "production") (newError "boom" "at app.js") rfl⟩

/-- C4, as stated, fails: for a thrown string, with `NODE_ENV` unset, the JSON
document sent has the member `error` and no member `message`, while the claim
has the body contain both. -/
theorem thrown_string_body_has_no_message :
    ∃ r json, errorFormatter none (.str "boom") = some r ∧
      (responsesSent r.effects).map Response.json = [some json] ∧
      json = .obj (.cons "error" (.str "boom") .nil) ∧
      json.field "error" = some (.str "boom") ∧ json.field "message" = none :=
  ⟨_, _, rfl, by decide, rfl, rfl, rfl⟩

/-- C4, amended: for every error that reaches the formatter, the formatter
returns, leaves the error either as it was or with `status` written to 500,
and calls `res.json` once. When `NODE_ENV` is the string production the body
it gives has the one property `message`, its JSON text has no key other than
`message`, and the formatter writes nothing with `console.error`. When
`NODE_ENV` is anything else, or unset, the body has the property `error`
holding the error itself and the property `message`, its JSON text has the
member `error` (the serialisation of the error) and has the member `message`
exactly when `error.message` is not `undefined`, and the formatter writes that
same error with `console.error` exactly once. When the resolved status is an
integer from 300 to 999 other than 304, the one response sent
carries that body and nothing is raised. -/
theorem diagnostics_only_outside_production (nodeEnv : Option String) (error : JSVal)
    (h : error.truthy = true) :
    ∃ r s m body, errorFormatter nodeEnv error = some r ∧
      error.get "status" = some s ∧ error.get "message" = some m ∧
      (r.error = error ∨ error.set "status" (.num 500) = some r.error) ∧
      jsonCalls r.effects = [body] ∧
      (∀ S : Int, s.or (.num 500) = .num S → 300 ≤ S → S ≤ 999 → S ≠ 304 →
        responsesSent r.effects = [⟨.num S, some body⟩] ∧ raisedValues r.effects = []) ∧
      (nodeEnv = some "production" →
        body = .obj false true (.cons "message" m true true .nil) ∧
        consoleLog r.effects = [] ∧
        ∃ fields, serializeJSONProperty body = some (.obj fields) ∧
          ∀ k ∈ fields.keys, k = "message") ∧
      (nodeEnv ≠ some "production" →
        body = .obj false true
          (.cons "message" m true true (.cons "error" r.error true true .nil)) ∧
        consoleLog r.effects = [r.error] ∧
        ∃ fields j, serializeJSONProperty body = some (.obj fields) ∧
          serializeJSONProperty r.error = some j ∧ fields.lookup "error" = some j ∧
          fields.lookup "message" = serializeJSONProperty m ∧
          ((fields.lookup "message").isSome ↔ m ≠ .undefined)) := by
  obtain ⟨s, e2, m, hs, he2, hm, hrun⟩ := errorFormatter_eq nodeEnv error h
  obtain ⟨-, hjs, hlog, -⟩ := formatterTrace_calls nodeEnv e2 (s.or (.num 500)) m
  have hkeep : e2 = error ∨ error.set "status" (.num 500) = some e2 := by
    split at he2
    · exact Or.inr he2
    · cases he2; exact Or.inl rfl
  have ht2 : e2.truthy = true := by
    rcases hkeep with rfl | hset
    · exact h
    · exact JSVal.truthy_of_set error e2 _ _ h hset
  have hiff : (serializeJSONProperty m).isSome ↔ m ≠ .undefined := by
    rw [Ne, ← serializeJSONProperty_eq_none, Option.isSome_iff_ne_none]
  refine ⟨_, s, m, formatterBody nodeEnv e2 m, hrun, hs, hm, hkeep, hjs, ?_, ?_, ?_⟩
  · intro S hS h1 h2 h304
    have hf : codeFate (s.or (.num 500)) = .withBody S := by
      rw [hS]
      exact codeFate_withBody S h1 h2 h304
    exact ⟨(formatterTrace_withBody nodeEnv e2 _ m S hf).2.2.2.1,
      formatterTrace_raisedValues nodeEnv e2 _ m S (Or.inl hf)⟩
  · intro hprod
    have hp : notProduction nodeEnv = false := by simp [notProduction, hprod]
    obtain ⟨fields, hser, hkeys⟩ := formatterBody_keys_production nodeEnv e2 m hp
    refine ⟨by simp [formatterBody, hp], by simp [hlog, hp], fields, hser, hkeys⟩
  · intro hprod
    have hp : notProduction nodeEnv = true := by simpa [notProduction] using hprod
    obtain ⟨fields, j, hser, hj, hfield⟩ := formatterBody_error nodeEnv e2 m hp ht2
    obtain ⟨-, fields2, hser2, hmsg⟩ := formatterBody_message nodeEnv e2 m
    rw [hser] at hser2
    cases hser2
    refine ⟨by simp [formatterBody, hp], by simp [hlog, hp], fields, j, hser, hj, hfield,
      hmsg, by rw [hmsg]; exact hiff⟩

/-- An error with no status, with `NODE_ENV` unset. -/
theorem diagnostics_only_outside_production_witness :
    (newError "boom" "at app.js").truthy = true ∧
    ∃ r s m body, errorFormatter none (newError "boom" "at app.js") = some r ∧
      (newError "boom" "at app.js").get "status" = some s ∧
      (newError "boom" "at app.js").get "message" = some m ∧
      (r.error = newError "boom" "at app.js" ∨
        (newError "boom" "at app.js").set "status" (.num 500) = some r.error) ∧
      jsonCalls r.effects = [body] ∧
      (∀ S : Int, s.or (.num 500) = .num S → 300 ≤ S → S ≤ 999 → S ≠ 304 →
        responsesSent r.effects = [⟨.num S, some body⟩] ∧ raisedValues r.effects = []) ∧
      ((none : Option String) = some "production" →
        body = .obj false true (.cons "message" m true true .nil) ∧
        consoleLog r.effects = [] ∧
        ∃ fields, serializeJSONProperty body = some (.obj fields) ∧
          ∀ k ∈ fields.keys, k = "message") ∧
      ((none : Option String) ≠ some "production" →
        body = .obj false true
          (.cons "message" m true true (.cons "error" r.error true true .nil)) ∧
        consoleLog r.effects = [r.error] ∧
        ∃ fields j, serializeJSONProperty body = some (.obj fields) ∧
          serializeJSONProperty r.error = some j ∧ fields.lookup "error" = some j ∧
          fields.lookup "message" = serializeJSONProperty m ∧
          ((fields.lookup "message").isSome ↔ m ≠ .undefined)) :=
  ⟨rfl, diagnostics_only_outside_production none (newError "boom" "at app.js") rfl⟩

/-- C5, as stated, fails: for the plain object with the one property
`status: 403`, in production, the formatter sends the JSON document with no
member at all, so the document has no `message`. -/
theorem messageless_error_has_no_message_in_json :
    ∃ r json, errorFormatter (some "production") (objectLiteral "status" (.num 403)) = some r ∧
      (responsesSent r.effects).map Response.json = [some json] ∧
      json = .obj .nil ∧ json.field "message" = none :=
  ⟨_, _, rfl, by decide, rfl, rfl⟩

/-- C5, amended: for every value that reaches the formatter, in either
environment mode, the formatter returns, calls `res.status` once, with
`error.status` or 500, and calls `res.json` once, with an object that has the
property `message` holding the value of `error.message`; the JSON text of
that object is an object whose member `message` is the serialisation of that
value, so it is there exactly when `error.message` is not `undefined`. When
the status set is an integer from 300 to 999 other than 304, one
response is sent, with that status and that body. -/
theorem body_message_is_condition_message (nodeEnv : Option String) (error : JSVal)
    (h : error.truthy = true) :
    ∃ r s m, errorFormatter nodeEnv error = some r ∧
      error.get "status" = some s ∧ error.get "message" = some m ∧
      ∃ body fields, statusCalls r.effects = [s.or (.num 500)] ∧
        jsonCalls r.effects = [body] ∧
        body.get "message" = some m ∧
        serializeJSONProperty body = some (.obj fields) ∧
        fields.lookup "message" = serializeJSONProperty m ∧
        ((fields.lookup "message").isSome ↔ m ≠ .undefined) ∧
        ∀ S : Int, s.or (.num 500) = .num S → 300 ≤ S → S ≤ 999 → S ≠ 304 →
          responsesSent r.effects = [⟨.num S, some body⟩] := by
  obtain ⟨s, e2, m, hs, -, hm, hrun⟩ := errorFormatter_eq nodeEnv error h
  obtain ⟨hst, hjs, -, -⟩ := formatterTrace_calls nodeEnv e2 (s.or (.num 500)) m
  obtain ⟨hget, fields, hser, hfield⟩ := formatterBody_message nodeEnv e2 m
  have hiff : (serializeJSONProperty m).isSome ↔ m ≠ .undefined := by
    rw [Ne, ← serializeJSONProperty_eq_none, Option.isSome_iff_ne_none]
  refine ⟨_, s, m, hrun, hs, hm, _, fields, hst, hjs, hget, hser, hfield,
    by rw [hfield]; exact hiff, ?_⟩
  intro S hS h1 h2 h304
  have hf : codeFate (s.or (.num 500)) = .withBody S := by
    rw [hS]
    exact codeFate_withBody S h1 h2 h304
  exact (formatterTrace_withBody nodeEnv e2 _ m S hf).2.2.2.1

/-- A thrown string, with `NODE_ENV` unset. -/
theorem body_message_is_condition_message_witness :
    (JSVal.str "boom").truthy = true ∧
    ∃ r s m, errorFormatter none (.str "boom") = some r ∧
      (JSVal.str "boom").get "status" = some s ∧ (JSVal.str "boom").get "message" = some m ∧
      ∃ body fields, statusCalls r.effects = [s.or (.num 500)] ∧
        jsonCalls r.effects = [body] ∧
        body.get "message" = some m ∧
        serializeJSONProperty body = some (.obj fields) ∧
        fields.lookup "message" = serializeJSONProperty m ∧
        ((fields.lookup "message").isSome ↔ m ≠ .undefined) ∧
        ∀ S : Int, s.or (.num 500) = .num S → 300 ≤ S → S ≤ 999 → S ≠ 304 →
          responsesSent r.effects = [⟨.num S, some body⟩] :=
  ⟨by decide, body_message_is_condition_message none (.str "boom") (by decide)⟩

/-- C6, as stated, fails: for the plain object with `status: 700` and
`message: "Teapot"` the formatter answers with status 700, which is not in
the range 100..599. -/
theorem response_status_can_be_invalid :
    ∃ r, errorFormatter (some "production")
        (.obj false true (.cons "status" (.num 700) true true
          (.cons "message" (.str "Teapot") true true .nil))) = some r ∧
      (responsesSent r.effects).map Response.status = [.num 700] ∧
      validHttpStatus (.num 700) = false :=
  ⟨_, rfl, by decide, by decide⟩

/-- C6, amended: a request that matches no route is answered with status 404,
which is a valid code; for every error that reaches the formatter, the code
the formatter sets is the value of `error.status` when that value is truthy
and 500 otherwise; when `error.status` is falsy the response sent has status
500, and when it is an integer from 300 to 599 the response
sent has that status; in both cases the status is a valid HTTP status
code. -/
theorem response_status_valid_when_condition_status_is (ext : Stage → JSVal → List Effect)
    (nodeEnv : Option String) (stack : String) (error : JSVal) (h : error.truthy = true) :
    ((responsesSent (allEffects (dispatch (handle ext nodeEnv stack)
        [.notFound, .errorFormatter] .undefined))).map Response.status = [.num 404] ∧
      validHttpStatus (.num 404) = true) ∧
    ∃ s r, error.get "status" = some s ∧ errorFormatter nodeEnv error = some r ∧
      statusCalls r.effects = [if s.truthy then s else .num 500] ∧
      (s.truthy = false →
        (responsesSent r.effects).map Response.status = [.num 500] ∧
        validHttpStatus (.num 500) = true) ∧
      (∀ S : Int, s = .num S → 300 ≤ S → S ≤ 599 →
        (responsesSent r.effects).map Response.status = [.num S] ∧
        validHttpStatus (.num S) = true) := by
  refine ⟨⟨?_, by decide⟩, ?_⟩
  · rw [dispatch_terminal_pair_of_falsy ext nodeEnv stack .undefined rfl]
    have hsent := (formatterTrace_withBody nodeEnv (notFoundError stack) (.num 404)
      (.str "Not Found") 404 codeFate_404).2.2.2.1
    have hall : allEffects [⟨.notFound, .undefined, [.next (notFoundError stack)]⟩,
        ⟨.errorFormatter, notFoundError stack,
          formatterTrace nodeEnv (notFoundError stack) (.num 404) (.str "Not Found")⟩] =
        .next (notFoundError stack) ::
          formatterTrace nodeEnv (notFoundError stack) (.num 404) (.str "Not Found") := by
      simp [allEffects]
    rw [hall]
    have hskip : ∀ fx, responsesSent (.next (notFoundError stack) :: fx) = responsesSent fx :=
      fun _ => rfl
    rw [hskip, hsent]
    simp
  · obtain ⟨s, e2, m, hs, -, -, hrun⟩ := errorFormatter_eq nodeEnv error h
    obtain ⟨hst, -, -, -⟩ := formatterTrace_calls nodeEnv e2 (s.or (.num 500)) m
    refine ⟨s, _, hs, hrun, hst, ?_, ?_⟩
    · intro hf
      refine ⟨?_, by decide⟩
      simp only [JSVal.or_500_of_falsy s hf]
      have hsent := (formatterTrace_withBody nodeEnv e2 (.num 500) m 500 codeFate_500).2.2.2.1
      rw [hsent]
      simp
    · intro S hS h1 h2
      subst hS
      have ht : (JSVal.num (S : ℚ)).truthy = true := by
        have : (S : ℚ) ≠ 0 := by
          have : S ≠ 0 := by omega
          exact_mod_cast this
        simp [JSVal.truthy, this]
      refine ⟨?_, ?_⟩
      · simp only [JSVal.or_500_of_truthy _ ht]
        exact (formatterTrace_sent nodeEnv e2 _ m S
          (codeFate_sends S h1 (by omega))).2.2.1
      · simp [validHttpStatus]
        omega

/-- Scenario B of the specification (status 403), with `NODE_ENV` unset. -/
theorem response_status_valid_when_condition_status_is_witness :
    (JSVal.obj false true (.cons "status" (.num 403) true true
      (.cons "message" (.str "Forbidden") true true .nil))).truthy = true ∧
    (((responsesSent (allEffects (dispatch (handle passThrough none "at app.js")
        [.notFound, .errorFormatter] .undefined))).map Response.status = [.num 404] ∧
      validHttpStatus (.num 404) = true) ∧
    ∃ s r, (JSVal.obj false true (.cons "status" (.num 403) true true
        (.cons "message" (.str "Forbidden") true true .nil))).get "status" = some s ∧
      errorFormatter none (JSVal.obj false true (.cons "status" (.num 403) true true
        (.cons "message" (.str "Forbidden") true true .nil))) = some r ∧
      statusCalls r.effects = [if s.truthy then s else .num 500] ∧
      (s.truthy = false →
        (responsesSent r.effects).map Response.status = [.num 500] ∧
        validHttpStatus (.num 500) = true) ∧
      (∀ S : Int, s = .num S → 300 ≤ S → S ≤ 599 →
        (responsesSent r.effects).map Response.status = [.num S] ∧
        validHttpStatus (.num S) = true)) :=
  ⟨rfl, response_status_valid_when_condition_status_is passThrough none "at app.js" _ rfl⟩

/-- C7, as stated, fails outside production: for an Error with no status and
`NODE_ENV` unset, the formatter writes `status` and the JSON document it sends
shows the write, in the member `error`; without the write the member `error`
would be the empty object. The two responses differ. -/
theorem status_write_shows_in_diagnostic_body :
    ∃ r r0, errorFormatter none (newError "boom" "at app.js") = some r ∧
      errorFormatterNoMutation none (newError "boom" "at app.js") = some r0 ∧
      (responsesSent r.effects).map Response.json = [some (.obj (.cons "message" (.str "boom")
        (.cons "error" (.obj (.cons "status" (.num 500) .nil)) .nil)))] ∧
      (responsesSent r0.effects).map Response.json = [some (.obj (.cons "message" (.str "boom")
        (.cons "error" (.obj .nil) .nil)))] ∧
      responsesSent r.effects ≠ responsesSent r0.effects :=
  ⟨_, _, rfl, rfl, by decide, by decide, by decide⟩

/-- C7, amended: for every error object whose `status` is unset, in either
environment mode, the response sent has status 500, as it would without the
write of step 2. When the object is extensible the formatter writes `status`
to 500 on it; in production the whole response is the one it would be without
the write; outside production the body differs only in its property `error`,
which holds the error with `status` written where it would hold the error as
it came. When the object is not extensible (frozen, sealed) the write is
dropped, the error stays as it came and the response is the one it would be
without the write. -/
theorem status_write_changes_only_diagnostic_body (nodeEnv : Option String)
    (isError extensible : Bool) (props : JSProps) (hunset : props.lookup "status" = none) :
    ∃ r r0, errorFormatter nodeEnv (.obj isError extensible props) = some r ∧
      errorFormatterNoMutation nodeEnv (.obj isError extensible props) = some r0 ∧
      r0.error = .obj isError extensible props ∧
      (responsesSent r.effects).map Response.status = [.num 500] ∧
      (responsesSent r0.effects).map Response.status = [.num 500] ∧
      (extensible = true →
        r.error = .obj isError true (props.assign true "status" (.num 500)) ∧
        r.error.get "status" = some (.num 500) ∧
        (nodeEnv = some "production" → responsesSent r.effects = responsesSent r0.effects) ∧
        (nodeEnv ≠ some "production" → ∃ m,
          responsesSent r.effects = [⟨.num 500, some (.obj false true
            (.cons "message" m true true (.cons "error" r.error true true .nil)))⟩] ∧
          responsesSent r0.effects = [⟨.num 500, some (.obj false true
            (.cons "message" m true true
              (.cons "error" (.obj isError true props) true true .nil)))⟩])) ∧
      (extensible = false →
        r.error = .obj isError false props ∧
        responsesSent r.effects = responsesSent r0.effects) := by
  have hs0 : (JSVal.obj isError extensible props).get "status" = some .undefined := by
    cases isError <;> simp [JSVal.get, hunset, errorPrototype]
  obtain ⟨s, e2, m, hs, he2, hm, hrun⟩ :=
    errorFormatter_eq nodeEnv (.obj isError extensible props) rfl
  obtain ⟨s0, m0, hs', hm', hrun0⟩ :=
    errorFormatterNoMutation_eq nodeEnv (.obj isError extensible props) rfl
  rw [hs0] at hs hs'
  cases hs
  cases hs'
  rw [hm] at hm'
  cases hm'
  have hor : JSVal.undefined.or (.num 500) = .num 500 := rfl
  rw [hor] at hrun hrun0 he2
  have he : e2 = .obj isError extensible (props.assign extensible "status" (.num 500)) := by
    have h500 : (JSVal.num 500).strictEqNum 500 = true := by decide
    rw [h500] at he2
    simpa [JSVal.set] using he2.symm
  subst he
  have hsent := (formatterTrace_withBody nodeEnv
    (.obj isError extensible (props.assign extensible "status" (.num 500))) (.num 500) m 500
    codeFate_500).2.2.2.1
  have hsent0 := (formatterTrace_withBody nodeEnv (.obj isError extensible props) (.num 500) m
    500 codeFate_500).2.2.2.1
  refine ⟨_, _, hrun, hrun0, rfl, by rw [hsent]; simp, by rw [hsent0]; simp, ?_, ?_⟩
  · intro hx
    subst hx
    refine ⟨rfl, by simp [JSVal.get, JSProps.lookup_assign_new _ _ _ hunset], ?_, ?_⟩
    · intro hprod
      have hp : notProduction nodeEnv = false := by simp [notProduction, hprod]
      simp only [hsent, hsent0, formatterBody, hp]
      rfl
    · intro hprod
      have hp : notProduction nodeEnv = true := by simpa [notProduction] using hprod
      simp only [hsent, hsent0, formatterBody, hp]
      exact ⟨m, by simp, by simp⟩
  · intro hx
    subst hx
    have hdrop := JSProps.assign_not_extensible props "status" (.num 500) hunset
    simp [hdrop]

/-- Scenario C of the specification: a plain error with no status, in
production. -/
theorem status_write_changes_only_diagnostic_body_witness :
    (JSProps.cons "stack" (.str "at app.js") false true
      (.cons "message" (.str "boom") false true .nil)).lookup "status" = none ∧
    ∃ r r0, errorFormatter (some "production") (newError "boom" "at app.js") = some r ∧
      errorFormatterNoMutation (some "production") (newError "boom" "at app.js") = some r0 ∧
      r0.error = newError "boom" "at app.js" ∧
      (responsesSent r.effects).map Response.status = [.num 500] ∧
      (responsesSent r0.effects).map Response.status = [.num 500] ∧
      (true = true →
        r.error = .obj true true ((JSProps.cons "stack" (.str "at app.js") false true
          (.cons "message" (.str "boom") false true .nil)).assign true "status" (.num 500)) ∧
        r.error.get "status" = some (.num 500) ∧
        (some "production" = some "production" →
          responsesSent r.effects = responsesSent r0.effects) ∧
        (some "production" ≠ some "production" → ∃ m,
          responsesSent r.effects = [⟨.num 500, some (.obj false true
            (.cons "message" m true true (.cons "error" r.error true true .nil)))⟩] ∧
          responsesSent r0.effects = [⟨.num 500, some (.obj false true
            (.cons "message" m true true
              (.cons "error" (newError "boom" "at app.js") true true .nil)))⟩])) ∧
      (true = false →
        r.error = .obj true false (.cons "stack" (.str "at app.js") false true
          (.cons "message" (.str "boom") false true .nil)) ∧
        responsesSent r.effects = responsesSent r0.effects) :=
  ⟨rfl, status_write_changes_only_diagnostic_body (some "production") true true
    (.cons "stack" (.str "at app.js") false true (.cons "message" (.str "boom") false true .nil))
    rfl⟩

/-- C8, as stated, fails: for the plain object with `status: -1`, in
production, the formatter calls `res.status` and `res.json`, and `res.json`
raises because Node refuses the code: `res.end` is never called, the
formatter sends no response and leaves the response unfinished, and the
raised error is handed on, so that an error handler registered behind the
formatter is run with it. -/
theorem refused_status_formatter_raises :
    ∃ r, errorFormatter (some "production")
        (.obj false true (.cons "status" (.num (-1)) true true
          (.cons "message" (.str "Negative") true true .nil))) = some r ∧
      statusCalls r.effects = [.num (-1)] ∧ (jsonCalls r.effects).length = 1 ∧
      endCalls r.effects = 0 ∧ raisedValues r.effects = [platformError] ∧
      responsesSent r.effects = [] ∧
      (perform ResState.init r.effects).2.finished = false ∧
      (dispatch (handle passThrough (some "production") "at app.js")
          [.errorFormatter, .ravenErrorHandler]
          (.obj false true (.cons "status" (.num (-1)) true true
            (.cons "message" (.str "Negative") true true .nil)))).map
        (fun c => (c.stage, c.arg)) =
        [(.errorFormatter, .obj false true (.cons "status" (.num (-1)) true true
            (.cons "message" (.str "Negative") true true .nil))),
         (.ravenErrorHandler, platformError)] :=
  ⟨_, rfl, by decide, by decide, by decide, by decide, by decide, by decide, by decide⟩

/-- C8, amended: the not-found middleware returns, makes no call on the
response object, sends nothing and calls `next` exactly once, with its error.
For every error that reaches the formatter and whose `status` is falsy or an
integer from 300 to 999, in either environment mode, the
formatter returns, calls `res.status` once, `res.json` once and `res.end`
once, never calls `next`, raises nothing, sends exactly one response and
leaves the response finished; the dispatcher runs no stage after it whatever
stages are registered behind it, and on the terminal pair exactly one
response is sent and the last stage run is the formatter. The same holds on
the terminal pair when no error is pending. -/
theorem one_response_and_no_stage_after_formatter (ext : Stage → JSVal → List Effect)
    (nodeEnv : Option String) (stack : String) (rest : List Stage) (error s : JSVal)
    (h : error.truthy = true) (hs : error.get "status" = some s)
    (hvalid : s.truthy = false ∨ ∃ S : Int, s = .num S ∧ 300 ≤ S ∧ S ≤ 999) :
    (∃ r, notFound stack = some r ∧ (∀ fx ∈ r.effects, fx.writesResponse = false) ∧
      responsesSent r.effects = [] ∧ nextCalls r.effects = [r.error]) ∧
    (∃ r, errorFormatter nodeEnv error = some r ∧
      (statusCalls r.effects).length = 1 ∧ (jsonCalls r.effects).length = 1 ∧
      endCalls r.effects = 1 ∧ nextCalls r.effects = [] ∧ raisedValues r.effects = [] ∧
      (responsesSent r.effects).length = 1 ∧
      (perform ResState.init r.effects).2.finished = true ∧
      dispatch (handle ext nodeEnv stack) (.errorFormatter :: rest) error =
        [⟨.errorFormatter, error, r.effects⟩] ∧
      (responsesSent (allEffects (dispatch (handle ext nodeEnv stack)
        [.notFound, .errorFormatter] error))).length = 1 ∧
      ((dispatch (handle ext nodeEnv stack) [.notFound, .errorFormatter] error).map
        Call.stage).getLast? = some .errorFormatter) ∧
    (∀ layerError : JSVal, layerError.truthy = false →
      (responsesSent (allEffects (dispatch (handle ext nodeEnv stack)
        [.notFound, .errorFormatter] layerError))).length = 1 ∧
      ((dispatch (handle ext nodeEnv stack) [.notFound, .errorFormatter] layerError).map
        Call.stage).getLast? = some .errorFormatter) := by
  refine ⟨⟨_, notFound_eq stack, ?_, rfl, rfl⟩, ?_, ?_⟩
  · intro fx hfx
    simp only [List.mem_singleton] at hfx
    subst hfx
    rfl
  · obtain ⟨s', e2, m, hs', -, -, hrun⟩ := errorFormatter_eq nodeEnv error h
    rw [hs] at hs'
    cases hs'
    obtain ⟨c, hfate⟩ : ∃ c : Int, codeFate (s.or (.num 500)) = .withBody c ∨
        codeFate (s.or (.num 500)) = .noBody c := by
      rcases hvalid with hf | ⟨S, rfl, h1, h2⟩
      · rw [JSVal.or_500_of_falsy s hf]
        exact ⟨500, Or.inl codeFate_500⟩
      · have ht : (JSVal.num (S : ℚ)).truthy = true := by
          have : (S : ℚ) ≠ 0 := by
            have : S ≠ 0 := by omega
            exact_mod_cast this
          simp [JSVal.truthy, this]
        rw [JSVal.or_500_of_truthy _ ht]
        exact ⟨S, codeFate_sends S h1 h2⟩
    obtain ⟨hst, hjs, -, hnext⟩ := formatterTrace_calls nodeEnv e2 (s.or (.num 500)) m
    obtain ⟨hend, hfwd, hsent, hfin⟩ := formatterTrace_sent nodeEnv e2 (s.or (.num 500)) m c hfate
    have hraise := formatterTrace_raisedValues nodeEnv e2 (s.or (.num 500)) m c hfate
    have hlen : (responsesSent (formatterTrace nodeEnv e2 (s.or (.num 500)) m)).length = 1 := by
      have := congrArg List.length hsent
      simpa using this
    have hd := dispatch_formatter_of_truthy ext nodeEnv stack rest error _ h hrun hfwd
    have hd0 := dispatch_formatter_of_truthy ext nodeEnv stack [] error _ h hrun hfwd
    refine ⟨_, hrun, by rw [hst]; rfl, by rw [hjs]; rfl, hend, hnext, hraise, hlen, hfin, hd,
      ?_, ?_⟩
    · rw [dispatch_skip_notFound ext nodeEnv stack _ error h, hd0]
      simpa [allEffects] using hlen
    · rw [dispatch_skip_notFound ext nodeEnv stack _ error h, hd0]
      rfl
  · intro layerError hl
    rw [dispatch_terminal_pair_of_falsy ext nodeEnv stack layerError hl]
    have hall : allEffects [⟨.notFound, layerError, [.next (notFoundError stack)]⟩,
        ⟨.errorFormatter, notFoundError stack,
          formatterTrace nodeEnv (notFoundError stack) (.num 404) (.str "Not Found")⟩] =
        .next (notFoundError stack) ::
          formatterTrace nodeEnv (notFoundError stack) (.num 404) (.str "Not Found") := by
      simp [allEffects]
    have hskip : ∀ fx, responsesSent (.next (notFoundError stack) :: fx) = responsesSent fx :=
      fun _ => rfl
    rw [hall, hskip, (formatterTrace_withBody nodeEnv _ _ _ 404 codeFate_404).2.2.2.1]
    exact ⟨rfl, rfl⟩

/-- Scenario B of the specification (status 403), with `NODE_ENV` unset and a
stage registered behind the formatter. -/
theorem one_response_and_no_stage_after_formatter_witness :
    (JSVal.obj false true (.cons "status" (.num 403) true true
      (.cons "message" (.str "Forbidden") true true .nil))).truthy = true ∧
    (JSVal.obj false true (.cons "status" (.num 403) true true
      (.cons "message" (.str "Forbidden") true true .nil))).get "status" = some (.num 403) ∧
    ((∃ r, notFound "at app.js" = some r ∧ (∀ fx ∈ r.effects, fx.writesResponse = false) ∧
      responsesSent r.effects = [] ∧ nextCalls r.effects = [r.error]) ∧
    (∃ r, errorFormatter none (JSVal.obj false true (.cons "status" (.num 403) true true
        (.cons "message" (.str "Forbidden") true true .nil))) = some r ∧
      (statusCalls r.effects).length = 1 ∧ (jsonCalls r.effects).length = 1 ∧
      endCalls r.effects = 1 ∧ nextCalls r.effects = [] ∧ raisedValues r.effects = [] ∧
      (responsesSent r.effects).length = 1 ∧
      (perform ResState.init r.effects).2.finished = true ∧
      dispatch (handle passThrough none "at app.js") (.errorFormatter :: [.ravenErrorHandler])
          (JSVal.obj false true (.cons "status" (.num 403) true true
            (.cons "message" (.str "Forbidden") true true .nil))) =
        [⟨.errorFormatter, JSVal.obj false true (.cons "status" (.num 403) true true
            (.cons "message" (.str "Forbidden") true true .nil)), r.effects⟩] ∧
      (responsesSent (allEffects (dispatch (handle passThrough none "at app.js")
        [.notFound, .errorFormatter] (JSVal.obj false true (.cons "status" (.num 403) true true
            (.cons "message" (.str "Forbidden") true true .nil)))))).length = 1 ∧
      ((dispatch (handle passThrough none "at app.js") [.notFound, .errorFormatter]
          (JSVal.obj false true (.cons "status" (.num 403) true true
            (.cons "message" (.str "Forbidden") true true .nil)))).map
        Call.stage).getLast? = some .errorFormatter) ∧
    (∀ layerError : JSVal, layerError.truthy = false →
      (responsesSent (allEffects (dispatch (handle passThrough none "at app.js")
        [.notFound, .errorFormatter] layerError))).length = 1 ∧
      ((dispatch (handle passThrough none "at app.js") [.notFound, .errorFormatter]
        layerError).map Call.stage).getLast? = some .errorFormatter)) :=
  ⟨rfl, rfl, one_response_and_no_stage_after_formatter passThrough none "at app.js"
    [.ravenErrorHandler] _ (.num 403) rfl rfl
    (Or.inr ⟨403, by norm_num, by norm_num, by norm_num⟩)⟩

/-- C9: in the order of the `app.use` calls every stage is registered once,
the static files and the routes module are among them, every stage that
serves routes comes before the not-found middleware, the not-found
middleware comes before the error formatter, and the error formatter is the
last stage. -/
theorem registration_order :
    appStack.Nodup ∧ Stage.expressStatic ∈ appStack ∧ Stage.routesHttps ∈ appStack ∧
    (∀ s ∈ appStack, s.servesRoutes = true →
      appStack.indexOf s < appStack.indexOf Stage.notFound) ∧
    appStack.indexOf Stage.notFound < appStack.indexOf Stage.errorFormatter ∧
    appStack.getLast? = some Stage.errorFormatter := by
  decide

/-- C10, evaluated on the code: for a request that matches no route, with
library stages that hand over what they are given, the stages run are the
eleven stages before the crash-reporting error handler with no error, the
not-found middleware, and the formatter with the error the not-found
middleware built; the crash-reporting error handler is not run at all. An
error pending from the start, by contrast, is handed to the crash-reporting
error handler and then to the formatter. -/
theorem not_found_error_bypasses_crash_reporting (nodeEnv : Option String) (stack : String) :
    ∃ e, (notFound stack).map Run.error = some e ∧
      (dispatch (handle passThrough nodeEnv stack) appStack .undefined).map
          (fun c => (c.stage, c.arg)) =
        [(.cookieParser, .undefined), (.ravenRequestHandler, .undefined),
         (.compression, .undefined), (.helmetHsts, .undefined), (.helmetNoCache, .undefined),
         (.helmetContentSecurityPolicy, .undefined), (.expressStatic, .undefined),
         (.logger, .undefined), (.bodyParserJson, .undefined),
         (.bodyParserUrlencoded, .undefined), (.routesHttps, .undefined),
         (.notFound, .undefined), (.errorFormatter, e)] ∧
      (∀ c ∈ dispatch (handle passThrough nodeEnv stack) appStack .undefined,
        c.stage ≠ .ravenErrorHandler) ∧
      (dispatch (handle passThrough nodeEnv stack) appStack (.str "boom")).map
          (fun c => (c.stage, c.arg)) =
        [(.ravenErrorHandler, .str "boom"), (.errorFormatter, .str "boom")] := by
  have hne1 : notFoundError stack ≠ .str "router" := by simp [notFoundError]
  have hne2 : notFoundError stack ≠ .str "route" := by simp [notFoundError]
  have ht : (notFoundError stack).truthy = true := rfl
  have hu : JSVal.undefined.truthy = false := rfl
  have hb : (JSVal.str "boom").truthy = true := by decide
  have hfwd := (formatterTrace_withBody nodeEnv (notFoundError stack) (.num 404)
    (.str "Not Found") 404 codeFate_404).2.2.1
  have hrun : dispatch (handle passThrough nodeEnv stack) appStack .undefined =
      [⟨.cookieParser, .undefined, [.next .undefined]⟩,
       ⟨.ravenRequestHandler, .undefined, [.next .undefined]⟩,
       ⟨.compression, .undefined, [.next .undefined]⟩,
       ⟨.helmetHsts, .undefined, [.next .undefined]⟩,
       ⟨.helmetNoCache, .undefined, [.next .undefined]⟩,
       ⟨.helmetContentSecurityPolicy, .undefined, [.next .undefined]⟩,
       ⟨.expressStatic, .undefined, [.next .undefined]⟩,
       ⟨.logger, .undefined, [.next .undefined]⟩,
       ⟨.bodyParserJson, .undefined, [.next .undefined]⟩,
       ⟨.bodyParserUrlencoded, .undefined, [.next .undefined]⟩,
       ⟨.routesHttps, .undefined, [.next .undefined]⟩,
       ⟨.notFound, .undefined, [.next (notFoundError stack)]⟩,
       ⟨.errorFormatter, notFoundError stack,
        formatterTrace nodeEnv (notFoundError stack) (.num 404) (.str "Not Found")⟩] := by
    simp [dispatch, handle, passThrough, appStack, forwarded, hu,
      Stage.isErrorHandler, notFound_eq, errorFormatter_notFound, hne1, hne2, ht, hfwd]
  obtain ⟨s, e2, m, hs, -, -, hr⟩ := errorFormatter_eq nodeEnv (.str "boom") hb
  have hs2 : s = .undefined := by
    have : (JSVal.str "boom").get "status" = some .undefined := rfl
    rw [this] at hs
    exact (Option.some.inj hs).symm
  subst hs2
  have hor : JSVal.undefined.or (.num 500) = .num 500 := rfl
  rw [hor] at hr
  have hfwd2 := (formatterTrace_withBody nodeEnv e2 (.num 500) m 500 codeFate_500).2.2.1
  have hd : dispatch (handle passThrough nodeEnv stack) [.errorFormatter] (.str "boom") =
      [⟨.errorFormatter, .str "boom", formatterTrace nodeEnv e2 (.num 500) m⟩] :=
    dispatch_formatter_of_truthy passThrough nodeEnv stack [] (.str "boom") _ hb hr hfwd2
  have hrun2 : dispatch (handle passThrough nodeEnv stack) appStack (.str "boom") =
      [⟨.ravenErrorHandler, .str "boom", [.next (.str "boom")]⟩,
       ⟨.errorFormatter, .str "boom", formatterTrace nodeEnv e2 (.num 500) m⟩] := by
    rw [← hd]
    simp [dispatch, handle, passThrough, appStack, forwarded, hb, Stage.isErrorHandler]
  refine ⟨notFoundError stack, by rw [notFound_eq]; rfl, by rw [hrun]; rfl, ?_,
    by rw [hrun2]; rfl⟩
  intro c hc
  rw [hrun] at hc
  simp only [List.mem_cons, List.mem_singleton, List.not_mem_nil, or_false] at hc
  rcases hc with rfl | rfl | rfl | rfl | rfl | rfl | rfl | rfl | rfl | rfl | rfl | rfl | rfl <;>
    simp

end App
